import Mathlib

/-! Verification of the AV-labeller frontend core (App.tsx and the canvas
component). Machine numbers are modelled as exact rationals; the wheel-zoom,
box-editing, filtering, deletion and store-replacement logic is translated
directly from the source. -/

namespace NeuroLabel

/-- Axis-aligned box in image-pixel coordinates, mirroring the BoundingBox
interface of App.tsx (fields x1, y1, x2, y2). -/
structure BoundingBox where
  x1 : ℚ
  y1 : ℚ
  x2 : ℚ
  y2 : ℚ
  deriving DecidableEq, Repr

/-- Detection entry of the canonical store, mirroring the Detection interface
of App.tsx: a client-side id plus label, confidence and box. -/
structure Detection where
  id : String
  label : String
  confidence : ℚ
  box : BoundingBox
  deriving DecidableEq, Repr

/-- Konva stage viewport: scale (stage.scaleX = stage.scaleY) and position
(stage.x, stage.y). Mapping is screen = image * scale + offset. -/
structure Viewport where
  scale : ℚ
  x : ℚ
  y : ℚ
  deriving DecidableEq, Repr

/-- The constant scaleBy = 1.1 of handleWheel. -/
def scaleBy : ℚ := 11 / 10

/-- New scale computed by handleWheel: divide by 1.1 when deltaY is strictly
positive, otherwise multiply by 1.1; then the two sequential clamps
(below 0.1 up to 0.1, above 5 down to 5), exactly as in the source. -/
def nextScale (s deltaY : ℚ) : ℚ :=
  let raw := if deltaY > 0 then s / scaleBy else s * scaleBy
  let lo := if raw < 1 / 10 then 1 / 10 else raw
  if lo > 5 then 5 else lo

/-- The handleWheel step of the canvas component: compute the image-space
point under the pointer from the old viewport, compute the clamped new scale,
and reposition the stage so that point maps back to the pointer. -/
def handleWheel (v : Viewport) (px py deltaY : ℚ) : Viewport :=
  let mX := (px - v.x) / v.scale
  let mY := (py - v.y) / v.scale
  let ns := nextScale v.scale deltaY
  ⟨ns, px - mX * ns, py - mY * ns⟩

/-- Inverse viewport transform: the image-space point shown at a given screen
point, image = (screen - offset) / scale. -/
def toImage (v : Viewport) (px py : ℚ) : ℚ × ℚ :=
  ((px - v.x) / v.scale, (py - v.y) / v.scale)

/-- Folding a finite sequence of wheel events (pointer x, pointer y, deltaY)
over a starting viewport. -/
def wheelEvents (v : Viewport) (events : List (ℚ × ℚ × ℚ)) : Viewport :=
  events.foldl (fun w e => handleWheel w e.1 e.2.1 e.2.2) v

theorem nextScale_bounds (s deltaY : ℚ) :
    1 / 10 ≤ nextScale s deltaY ∧ nextScale s deltaY ≤ 5 := by
  unfold nextScale
  dsimp only
  split_ifs <;> constructor <;> linarith

/-- C2: pointer-anchored zoom. For any viewport whose scale lies in the legal
range and any pointer position, a single wheel step leaves the image-space
point under the pointer unchanged, the clamped cases included. Arithmetic is
exact over the rationals, so the floating-point tolerance is not needed. -/
theorem wheel_pointer_stationary (v : Viewport) (px py deltaY : ℚ)
    (h1 : 1 / 10 ≤ v.scale) (h2 : v.scale ≤ 5) :
    toImage (handleWheel v px py deltaY) px py = toImage v px py := by
  have hs : v.scale ≠ 0 := by
    intro h
    rw [h] at h1
    norm_num at h1
  have hns : nextScale v.scale deltaY ≠ 0 := by
    have := (nextScale_bounds v.scale deltaY).1
    intro h
    rw [h] at this
    norm_num at this
  simp only [toImage, handleWheel, Prod.mk.injEq]
  constructor <;> field_simp <;> ring

/-- Witness for C2 at a concrete viewport and pointer. -/
theorem wheel_pointer_stationary_witness :
    (1 / 10 : ℚ) ≤ 1 ∧ (1 : ℚ) ≤ 5 ∧
      toImage (handleWheel ⟨1, 0, 0⟩ 100 100 (-1)) 100 100 =
        toImage ⟨1, 0, 0⟩ 100 100 :=
  ⟨by norm_num, by norm_num,
    wheel_pointer_stationary ⟨1, 0, 0⟩ 100 100 (-1) (by norm_num) (by norm_num)⟩

/-- C3: the stage scale stays inside the interval from 0.1 to 5 after any
finite sequence of wheel events, and each step sets the scale to the clamp of
the candidate scale (never rejecting the event). -/
theorem scale_invariant (v : Viewport) (events : List (ℚ × ℚ × ℚ))
    (h1 : 1 / 10 ≤ v.scale) (h2 : v.scale ≤ 5) :
    (1 / 10 ≤ (wheelEvents v events).scale ∧ (wheelEvents v events).scale ≤ 5) ∧
      ∀ s d : ℚ,
        nextScale s d = min 5 (max (1 / 10) (if d > 0 then s / scaleBy else s * scaleBy)) := by
  constructor
  · induction events generalizing v with
    | nil => exact ⟨h1, h2⟩
    | cons e es ih =>
      have hb := nextScale_bounds v.scale e.2.2
      have hstep : (handleWheel v e.1 e.2.1 e.2.2).scale = nextScale v.scale e.2.2 := rfl
      have := ih (handleWheel v e.1 e.2.1 e.2.2) (hstep ▸ hb.1) (hstep ▸ hb.2)
      simpa [wheelEvents] using this
  · intro s d
    unfold nextScale
    dsimp only
    by_cases hlt : (if d > 0 then s / scaleBy else s * scaleBy) < 1 / 10
    · rw [if_pos hlt, if_neg (by norm_num : ¬ (1 / 10 : ℚ) > 5),
        max_eq_left hlt.le, min_eq_right (by norm_num : (1 / 10 : ℚ) ≤ 5)]
    · push_neg at hlt
      rw [if_neg (not_lt.mpr hlt), max_eq_right hlt]
      by_cases hgt : (if d > 0 then s / scaleBy else s * scaleBy) > 5
      · rw [if_pos hgt, min_eq_left hgt.le]
      · push_neg at hgt
        rw [if_neg (not_lt.mpr hgt), min_eq_right hgt]

/-- Witness for C3 with a concrete start viewport and a two-event sequence. -/
theorem scale_invariant_witness :
    (1 / 10 : ℚ) ≤ 1 ∧ (1 : ℚ) ≤ 5 ∧
      ((1 / 10 ≤ (wheelEvents ⟨1, 0, 0⟩ [(0, 0, -3), (4, 4, 2)]).scale ∧
          (wheelEvents ⟨1, 0, 0⟩ [(0, 0, -3), (4, 4, 2)]).scale ≤ 5) ∧
        ∀ s d : ℚ,
          nextScale s d = min 5 (max (1 / 10) (if d > 0 then s / scaleBy else s * scaleBy))) :=
  ⟨by norm_num, by norm_num,
    scale_invariant ⟨1, 0, 0⟩ [(0, 0, -3), (4, 4, 2)] (by norm_num) (by norm_num)⟩

/-- C10 counterexample: at the maximum scale 5, a wheel event with deltaY
exactly 0 takes the zoom-in branch, the candidate 5.5 is clamped back to 5
and the recomputed position equals the old one, so the event is a no-op on
the viewport, refuting the sentence that it never is. -/
theorem zero_delta_noop_cex : handleWheel ⟨5, 0, 0⟩ 100 100 0 = ⟨5, 0, 0⟩ := by
  simp only [handleWheel, nextScale, scaleBy]
  norm_num

/-- C10 amended: a zero-delta wheel event takes the zoom-in branch (candidate
scale times 1.1, then clamped at 5); it changes the scale whenever the scale
is below 5, and is a no-op on the viewport exactly when the scale is already
at the maximum 5. -/
theorem zero_delta_zoom_in (v : Viewport) (px py : ℚ)
    (h1 : 1 / 10 ≤ v.scale) (h2 : v.scale ≤ 5) :
    (handleWheel v px py 0).scale = min (v.scale * scaleBy) 5 ∧
      (v.scale < 5 → (handleWheel v px py 0).scale ≠ v.scale) ∧
      (v.scale = 5 → handleWheel v px py 0 = v) := by
  have hscale : (handleWheel v px py 0).scale = nextScale v.scale 0 := rfl
  have hraw : ¬ v.scale * scaleBy < 1 / 10 := by
    rw [scaleBy]
    push_neg
    linarith
  have hform : nextScale v.scale 0 = min (v.scale * scaleBy) 5 := by
    unfold nextScale
    dsimp only
    rw [if_neg (by norm_num : ¬ (0 : ℚ) > 0), if_neg hraw]
    by_cases hgt : v.scale * scaleBy > 5
    · rw [if_pos hgt, min_eq_right hgt.le]
    · push_neg at hgt
      rw [if_neg (not_lt.mpr hgt), min_eq_left hgt]
  refine ⟨hscale.trans hform, ?_, ?_⟩
  · intro hlt
    rw [hscale, hform]
    rcases le_or_lt (v.scale * scaleBy) 5 with hle | hgt
    · rw [min_eq_left hle, scaleBy]
      intro heq
      nlinarith
    · rw [min_eq_right hgt.le]
      exact fun heq => absurd heq.symm (ne_of_lt hlt)
  · intro h5
    obtain ⟨s, vx, vy⟩ := v
    simp only at h5
    subst h5
    have hns : nextScale 5 0 = 5 := by
      unfold nextScale
      simp only [scaleBy]
      norm_num
    simp only [handleWheel, hns, Viewport.mk.injEq]
    refine ⟨trivial, ?_, ?_⟩ <;> field_simp

/-- Witness for C10 amended at scale 2: the zero-delta step raises the scale
to 2.2 and is not a no-op. -/
theorem zero_delta_zoom_in_witness :
    (1 / 10 : ℚ) ≤ 2 ∧ (2 : ℚ) ≤ 5 ∧
      ((handleWheel ⟨2, 1, 1⟩ 3 4 0).scale = min (2 * scaleBy) 5 ∧
        ((2 : ℚ) < 5 → (handleWheel ⟨2, 1, 1⟩ 3 4 0).scale ≠ 2) ∧
        ((2 : ℚ) = 5 → handleWheel ⟨2, 1, 1⟩ 3 4 0 = ⟨2, 1, 1⟩)) :=
  ⟨by norm_num, by norm_num,
    zero_delta_zoom_in ⟨2, 1, 1⟩ 3 4 (by norm_num) (by norm_num)⟩

/-- Konva transformer bounding box in screen (stage-absolute) space:
position plus width and height, as handed to boundBoxFunc. -/
structure KBox where
  x : ℚ
  y : ℚ
  width : ℚ
  height : ℚ
  deriving DecidableEq, Repr

/-- The boundBoxFunc of the Transformer: a proposed box narrower or shorter
than 5 screen units is rejected and the previous box is kept. -/
def boundBoxFunc (oldBox newBox : KBox) : KBox :=
  if newBox.width < 5 ∨ newBox.height < 5 then oldBox else newBox

/-- Screen-space (stage-absolute) bounding box of a detection rectangle:
the Rect carries image-space attributes and the stage applies
screen = image * scale + offset. -/
def toScreenBox (v : Viewport) (b : BoundingBox) : KBox :=
  ⟨v.scale * b.x1 + v.x, v.scale * b.y1 + v.y,
    v.scale * (b.x2 - b.x1), v.scale * (b.y2 - b.y1)⟩

/-- Image-space box recovered from an accepted screen-space box, as read back
by handleTransformEnd from the node attributes (x, y, width times scaleX,
height times scaleY) in layer coordinates. -/
def ofScreenBox (v : Viewport) (k : KBox) : BoundingBox :=
  ⟨(k.x - v.x) / v.scale, (k.y - v.y) / v.scale,
    (k.x - v.x) / v.scale + k.width / v.scale,
    (k.y - v.y) / v.scale + k.height / v.scale⟩

/-- A resize gesture commit: the transformer constrains the gesture box with
boundBoxFunc against the prior screen box, and handleTransformEnd folds the
accepted box back into an image-space box. -/
def resizeCommit (v : Viewport) (prior : BoundingBox) (gesture : KBox) : BoundingBox :=
  ofScreenBox v (boundBoxFunc (toScreenBox v prior) gesture)

/-- A plain drag commit from handleDragEnd: node scale factors are 1, so the
new box is the prior extents translated to the new node position. -/
def dragCommit (prior : BoundingBox) (nx ny : ℚ) : BoundingBox :=
  ⟨nx, ny, nx + (prior.x2 - prior.x1) * 1, ny + (prior.y2 - prior.y1) * 1⟩

theorem ofScreen_toScreen (v : Viewport) (b : BoundingBox) (hs : v.scale ≠ 0) :
    ofScreenBox v (toScreenBox v b) = b := by
  obtain ⟨x1, y1, x2, y2⟩ := b
  simp only [ofScreenBox, toScreenBox, BoundingBox.mk.injEq]
  refine ⟨?_, ?_, ?_, ?_⟩ <;> field_simp

/-- C4 counterexample: at stage scale 2 the minimum is checked in screen
units, so a gesture shrinking a valid box to 6 by 6 screen units is accepted
and commits an image-space box of extent 3, below 5 image pixels, while the
result differs from the prior box; this refutes the image-pixel reading of
the minimum-size rule. -/
theorem resize_min_image_cex :
    ((0 : ℚ) < 100 ∧ (5 : ℚ) ≤ 100) ∧
      (resizeCommit ⟨2, 0, 0⟩ ⟨0, 0, 100, 100⟩ ⟨0, 0, 6, 6⟩).x2 -
          (resizeCommit ⟨2, 0, 0⟩ ⟨0, 0, 100, 100⟩ ⟨0, 0, 6, 6⟩).x1 < 5 ∧
      resizeCommit ⟨2, 0, 0⟩ ⟨0, 0, 100, 100⟩ ⟨0, 0, 6, 6⟩ ≠ ⟨0, 0, 100, 100⟩ := by
  refine ⟨⟨by norm_num, by norm_num⟩, ?_, ?_⟩ <;>
    simp [resizeCommit, boundBoxFunc, toScreenBox, ofScreenBox] <;> norm_num

/-- C4 amended: the minimum extent is 5 screen units, not 5 image pixels.
A gesture whose screen extents fall below 5 is rejected and the prior box is
kept unchanged; an accepted gesture yields a box with x1 below x2 and y1
below y2 whose extents measure at least 5 screen units (width and height
divided back through the stage scale); a plain drag preserves both extents. -/
theorem resize_commit_screen_min (v : Viewport) (prior : BoundingBox) (g : KBox)
    (hs : 0 < v.scale) :
    (g.width < 5 ∨ g.height < 5 → resizeCommit v prior g = prior) ∧
      (5 ≤ g.width → 5 ≤ g.height →
        (resizeCommit v prior g).x1 < (resizeCommit v prior g).x2 ∧
          (resizeCommit v prior g).y1 < (resizeCommit v prior g).y2 ∧
          v.scale * ((resizeCommit v prior g).x2 - (resizeCommit v prior g).x1) = g.width ∧
          v.scale * ((resizeCommit v prior g).y2 - (resizeCommit v prior g).y1) = g.height) ∧
      (∀ nx ny : ℚ,
        (dragCommit prior nx ny).x2 - (dragCommit prior nx ny).x1 = prior.x2 - prior.x1 ∧
          (dragCommit prior nx ny).y2 - (dragCommit prior nx ny).y1 = prior.y2 - prior.y1) := by
  have hsne : v.scale ≠ 0 := ne_of_gt hs
  refine ⟨?_, ?_, ?_⟩
  · intro h
    have hb : boundBoxFunc (toScreenBox v prior) g = toScreenBox v prior := if_pos h
    rw [resizeCommit, hb, ofScreen_toScreen v prior hsne]
  · intro hw hh
    have hcond : ¬ (g.width < 5 ∨ g.height < 5) := by
      push_neg
      exact ⟨not_lt.mp (not_lt.mpr hw), not_lt.mp (not_lt.mpr hh)⟩
    have hb : boundBoxFunc (toScreenBox v prior) g = g := if_neg hcond
    have hwpos : 0 < g.width := by linarith
    have hhpos : 0 < g.height := by linarith
    simp only [resizeCommit, hb, ofScreenBox]
    refine ⟨?_, ?_, ?_, ?_⟩
    · have : 0 < g.width / v.scale := div_pos hwpos hs
      linarith
    · have : 0 < g.height / v.scale := div_pos hhpos hs
      linarith
    · field_simp
    · field_simp
  · intro nx ny
    constructor <;> simp [dragCommit]

/-- Witness for C4 amended at scale 2 with an accepted 8 by 6 gesture. -/
theorem resize_commit_screen_min_witness :
    (0 : ℚ) < 2 ∧
      (((⟨1, 1, 8, 6⟩ : KBox).width < 5 ∨ (⟨1, 1, 8, 6⟩ : KBox).height < 5 →
          resizeCommit ⟨2, 0, 0⟩ ⟨0, 0, 10, 10⟩ ⟨1, 1, 8, 6⟩ = ⟨0, 0, 10, 10⟩) ∧
        (5 ≤ (⟨1, 1, 8, 6⟩ : KBox).width → 5 ≤ (⟨1, 1, 8, 6⟩ : KBox).height →
          (resizeCommit ⟨2, 0, 0⟩ ⟨0, 0, 10, 10⟩ ⟨1, 1, 8, 6⟩).x1 <
              (resizeCommit ⟨2, 0, 0⟩ ⟨0, 0, 10, 10⟩ ⟨1, 1, 8, 6⟩).x2 ∧
            (resizeCommit ⟨2, 0, 0⟩ ⟨0, 0, 10, 10⟩ ⟨1, 1, 8, 6⟩).y1 <
              (resizeCommit ⟨2, 0, 0⟩ ⟨0, 0, 10, 10⟩ ⟨1, 1, 8, 6⟩).y2 ∧
            (2 : ℚ) * ((resizeCommit ⟨2, 0, 0⟩ ⟨0, 0, 10, 10⟩ ⟨1, 1, 8, 6⟩).x2 -
                (resizeCommit ⟨2, 0, 0⟩ ⟨0, 0, 10, 10⟩ ⟨1, 1, 8, 6⟩).x1) =
              (⟨1, 1, 8, 6⟩ : KBox).width ∧
            (2 : ℚ) * ((resizeCommit ⟨2, 0, 0⟩ ⟨0, 0, 10, 10⟩ ⟨1, 1, 8, 6⟩).y2 -
                (resizeCommit ⟨2, 0, 0⟩ ⟨0, 0, 10, 10⟩ ⟨1, 1, 8, 6⟩).y1) =
              (⟨1, 1, 8, 6⟩ : KBox).height) ∧
        (∀ nx ny : ℚ,
          (dragCommit ⟨0, 0, 10, 10⟩ nx ny).x2 - (dragCommit ⟨0, 0, 10, 10⟩ nx ny).x1 =
              (⟨0, 0, 10, 10⟩ : BoundingBox).x2 - (⟨0, 0, 10, 10⟩ : BoundingBox).x1 ∧
            (dragCommit ⟨0, 0, 10, 10⟩ nx ny).y2 - (dragCommit ⟨0, 0, 10, 10⟩ nx ny).y1 =
              (⟨0, 0, 10, 10⟩ : BoundingBox).y2 - (⟨0, 0, 10, 10⟩ : BoundingBox).y1)) :=
  ⟨by norm_num, resize_commit_screen_min ⟨2, 0, 0⟩ ⟨0, 0, 10, 10⟩ ⟨1, 1, 8, 6⟩ (by norm_num)⟩

/-- Derived visible subset computed in App.tsx: the detections whose
confidence is at least the slider threshold (inclusive comparison). -/
def visibleDetections (detections : List Detection) (threshold : ℚ) : List Detection :=
  detections.filter (fun d => decide (d.confidence ≥ threshold))

/-- The commit path of handleDragEnd and handleTransformEnd: the canvas is
rendered from the visible subset, the handler maps the edit over that subset
and setDetections replaces the whole canonical list with the result. -/
def updateBoxViaCanvas (detections : List Detection) (threshold : ℚ)
    (targetId : String) (newBox : BoundingBox) : List Detection :=
  (visibleDetections detections threshold).map
    (fun d => if d.id = targetId then { d with box := newBox } else d)

/-- Sample detection above the 0.5 threshold. -/
def detA : Detection := ⟨"a", "cat", 9 / 10, ⟨0, 0, 50, 50⟩⟩

/-- Sample detection below the 0.5 threshold. -/
def detB : Detection := ⟨"b", "dog", 1 / 5, ⟨60, 60, 90, 90⟩⟩

/-- C8: the visible view is the confidence filter of the canonical list. It
is a sublist (original relative order, entries untouched), it holds exactly
the entries whose confidence reaches the threshold, and its length counts
those entries; being a pure function of the list it leaves the canonical
list itself untouched by construction. -/
theorem visible_view_pure_filter (l : List Detection) (t : ℚ) :
    List.Sublist (visibleDetections l t) l ∧
      (∀ d : Detection, d ∈ visibleDetections l t ↔ d ∈ l ∧ t ≤ d.confidence) ∧
      (visibleDetections l t).length = l.countP (fun d => decide (t ≤ d.confidence)) := by
  refine ⟨List.filter_sublist l, ?_, ?_⟩
  · intro d
    simp [visibleDetections, List.mem_filter, ge_iff_le]
  · rw [visibleDetections, List.countP_eq_length_filter]

/-- C1: evaluating the drag-commit path at a store holding one detection
above and one below the threshold. The committed list is the edited visible
subset alone: the below-threshold entry is permanently dropped from the
canonical store, contradicting the claim (and the spec sentence that the
threshold never mutates the store). -/
theorem drag_commit_drops_hidden :
    updateBoxViaCanvas [detA, detB] (1 / 2) "a" ⟨5, 5, 55, 55⟩ =
        [⟨"a", "cat", 9 / 10, ⟨5, 5, 55, 55⟩⟩] ∧
      detB ∈ [detA, detB] ∧
      detB ∉ updateBoxViaCanvas [detA, detB] (1 / 2) "a" ⟨5, 5, 55, 55⟩ := by
  have hvis : visibleDetections [detA, detB] (1 / 2) = [detA] := by
    norm_num [visibleDetections, detA, detB]
  refine ⟨?_, ?_, ?_⟩
  · rw [updateBoxViaCanvas, hvis]
    norm_num [detA]
  · simp
  · rw [updateBoxViaCanvas, hvis]
    norm_num [detA, detB]

/-- The slice of App state read and written by the global keydown listener:
the canonical detection list and the current selection. A null selection is
modelled as none; generated ids are non-empty strings, so the truthiness
test on selectedId coincides with it being present. -/
structure KeyState where
  detections : List Detection
  selectedId : Option String
  deriving DecidableEq, Repr

/-- The handleKeyDown listener of App.tsx: when the key is Delete or
Backspace and a shape is selected, drop the entries whose id equals the
selection from the canonical list (functional update on the previous list)
and clear the selection; otherwise do nothing. -/
def handleKeyDown (key : String) (st : KeyState) : KeyState :=
  match st.selectedId with
  | some sel =>
      if key = "Delete" ∨ key = "Backspace" then
        ⟨st.detections.filter (fun d => decide (d.id ≠ sel)), none⟩
      else st
  | none => st

theorem length_filter_ne_of_count_one (l : List Detection) (sel : String)
    (h : l.countP (fun d => decide (d.id = sel)) = 1) :
    (l.filter (fun d => decide (d.id ≠ sel))).length + 1 = l.length := by
  induction l with
  | nil => simp at h
  | cons a t ih =>
    rw [List.countP_cons] at h
    rw [List.filter_cons]
    by_cases ha : a.id = sel
    · have ht : t.countP (fun d => decide (d.id = sel)) = 0 := by
        rw [if_pos (by simp [ha])] at h
        omega
      have hfe : t.filter (fun d => decide (d.id ≠ sel)) = t := by
        rw [List.filter_eq_self]
        intro d hd
        have hne := List.countP_eq_zero.mp ht d hd
        simpa using hne
      rw [if_neg (by simp [ha]), hfe, List.length_cons]
    · have h1 : t.countP (fun d => decide (d.id = sel)) = 1 := by
        rw [if_neg (by simp [ha])] at h
        omega
      have h2 := ih h1
      have hcond : decide (a.id ≠ sel) = true := by simp [ha]
      rw [if_pos hcond, List.length_cons, List.length_cons]
      omega

/-- C9: with a selected id occurring exactly once in the canonical list (ids
are unique by construction), pressing Delete or Backspace removes exactly
that entry, keeping every other entry unchanged in order, and clears the
selection; with no selection the key press changes nothing. -/
theorem delete_key (key : String) (st : KeyState) :
    (st.selectedId = none → handleKeyDown key st = st) ∧
      (∀ sel : String, st.selectedId = some sel →
        (key = "Delete" ∨ key = "Backspace") →
        st.detections.countP (fun d => decide (d.id = sel)) = 1 →
        (handleKeyDown key st).detections.length + 1 = st.detections.length ∧
          (handleKeyDown key st).detections =
            st.detections.filter (fun d => decide (d.id ≠ sel)) ∧
          (handleKeyDown key st).selectedId = none) := by
  constructor
  · intro h
    simp [handleKeyDown, h]
  · intro sel hsel hk hcount
    have hred : handleKeyDown key st =
        ⟨st.detections.filter (fun d => decide (d.id ≠ sel)), none⟩ := by
      simp [handleKeyDown, hsel, hk]
    rw [hred]
    exact ⟨length_filter_ne_of_count_one st.detections sel hcount, rfl, rfl⟩

/-- Witness for C9 at a concrete two-entry store with entry a selected:
the id a occurs exactly once, the press drops that entry and clears the
selection. -/
theorem delete_key_witness :
    ([detA, detB] : List Detection).countP (fun d => decide (d.id = "a")) = 1 ∧
      (handleKeyDown "Delete" ⟨[detA, detB], some "a"⟩).detections.length + 1 =
          ([detA, detB] : List Detection).length ∧
        (handleKeyDown "Delete" ⟨[detA, detB], some "a"⟩).detections =
          ([detA, detB] : List Detection).filter (fun d => decide (d.id ≠ "a")) ∧
        (handleKeyDown "Delete" ⟨[detA, detB], some "a"⟩).selectedId = none :=
  ⟨by simp [detA, detB],
    (delete_key "Delete" ⟨[detA, detB], some "a"⟩).2 "a" rfl (Or.inl rfl)
      (by simp [detA, detB])⟩

/-- History list entry as fetched from the backend, mirroring the
HistoryItem interface of App.tsx. -/
structure HistoryItem where
  id : ℤ
  filename : String
  timestamp : String
  detection_count : ℤ
  deriving DecidableEq, Repr

/-- The App component state touched by loading, detecting and deleting:
file, image source, canonical detections, decoded image dimensions, history,
current image id and selection. -/
structure AppState where
  file : Option String
  imageSrc : Option String
  detections : List Detection
  imageWidth : ℚ
  imageHeight : ℚ
  history : List HistoryItem
  currentImageId : Option ℤ
  selectedId : Option String
  deriving DecidableEq, Repr

/-- Detection payload entry as returned by the backend (no client id yet). -/
structure ServerDetection where
  label : String
  confidence : ℚ
  box : BoundingBox
  deriving DecidableEq, Repr

/-- Attaching fresh client-side ids to a server payload, modelling the map
that spreads each entry and assigns generateId(); the random ids are passed
in as a list. -/
def withFreshIds (payload : List ServerDetection) (freshIds : List String) :
    List Detection :=
  List.zipWith (fun (a : ServerDetection) (i : String) =>
    ⟨i, a.label, a.confidence, a.box⟩) payload freshIds

/-- Image URL built by loadHistoryItem for a stored image id. -/
def imageUrl (id : ℤ) : String :=
  "http://127.0.0.1:8000/images/" ++ toString id

/-- Net state update of a successful loadHistoryItem: current image id and
image source are set, the detections are the server payload with fresh ids,
the file and dimensions are reset. The selection field is not written. -/
def loadHistoryItemOk (id : ℤ) (payload : List ServerDetection)
    (freshIds : List String) (s : AppState) : AppState :=
  { s with currentImageId := some id,
           imageSrc := some (imageUrl id),
           detections := withFreshIds payload freshIds,
           file := none,
           imageWidth := 0, imageHeight := 0 }

/-- State update of handleFileChange when a file is picked: file and object
URL set, detections cleared, dimensions reset, current image id cleared.
The selection field is not written. -/
def handleFileChangeSel (f objectUrl : String) (s : AppState) : AppState :=
  { s with file := some f, imageSrc := some objectUrl, detections := [],
           imageWidth := 0, imageHeight := 0, currentImageId := none }

/-- Net state update of a successful handleDetect response: detections
replaced by the response payload with fresh ids and the current image id set.
The selection field is not written. -/
def handleDetectOk (imageId : ℤ) (payload : List ServerDetection)
    (freshIds : List String) (s : AppState) : AppState :=
  { s with detections := withFreshIds payload freshIds,
           currentImageId := some imageId }

/-- Net state update when the annotations request of loadHistoryItem fails:
the current image id and the image source were already assigned before and
outside the failing await, so they keep the new values; nothing else is
written. -/
def loadHistoryItemFail (id : ℤ) (s : AppState) : AppState :=
  { s with currentImageId := some id, imageSrc := some (imageUrl id) }

/-- Net state update when the detect request fails: every store write sits
after the await, so the state is unchanged (the loading flag is restored by
the finally block). -/
def handleDetectFail (s : AppState) : AppState := s

/-- Net state update when the save request fails: no store write occurs. -/
def saveAnnsFail (s : AppState) : AppState := s

/-- Net state update when the delete request fails: every store write sits
after the await, so the state is unchanged. -/
def deleteHistoryItemFail (s : AppState) : AppState := s

/-- Net state update when the history fetch fails: no store write occurs. -/
def fetchHistoryFail (s : AppState) : AppState := s

/-- Concrete state with a live selection, used by the counterexamples. -/
def sampleState : AppState :=
  ⟨some "old.png", some "blob:old", [detA, detB], 640, 480, [], some 1, some "a"⟩

/-- C5 counterexample: none of the three wholesale store replacements writes
the selection, so after each of them the selection still holds the old id
instead of the cleared value required by the claim. -/
theorem replace_keeps_selection_cex :
    (loadHistoryItemOk 2 [] [] sampleState).selectedId = some "a" ∧
      (handleFileChangeSel "new.png" "blob:new" sampleState).selectedId = some "a" ∧
      (handleDetectOk 3 [] [] sampleState).selectedId = some "a" ∧
      (some "a" : Option String) ≠ none :=
  ⟨rfl, rfl, rfl, by simp⟩

/-- C5 amended: replacing the store wholesale (history load, new file pick,
detect response) leaves the selection exactly as it was, possibly a stale id
matching no entry of the new list; it is not cleared. -/
theorem replace_preserves_selection (id imgId : ℤ)
    (payload dets : List ServerDetection) (ids1 ids2 : List String)
    (f url : String) (s : AppState) :
    (loadHistoryItemOk id payload ids1 s).selectedId = s.selectedId ∧
      (handleFileChangeSel f url s).selectedId = s.selectedId ∧
      (handleDetectOk imgId dets ids2 s).selectedId = s.selectedId :=
  ⟨rfl, rfl, rfl⟩

/-- C6 counterexample: a failing loadHistoryItem still changes the current
image id and the image source, because both are assigned before the awaited
annotations request, refuting the sentence that a failing request applies no
state mutation. -/
theorem network_fail_mutates_cex :
    (loadHistoryItemFail 2 sampleState).currentImageId ≠ sampleState.currentImageId ∧
      (loadHistoryItemFail 2 sampleState).imageSrc ≠ sampleState.imageSrc := by
  have h2 : toString (2 : ℤ) = "2" := rfl
  constructor <;> simp [loadHistoryItemFail, sampleState, imageUrl, h2]

/-- C6 amended: a failing detect, save, delete or history fetch applies no
state mutation; a failing history-item load keeps the detection list, the
file and the selection, but leaves the current image id and the image source
already pointing at the requested item. -/
theorem network_fail_effects (id : ℤ) (s : AppState) :
    handleDetectFail s = s ∧ saveAnnsFail s = s ∧
      deleteHistoryItemFail s = s ∧ fetchHistoryFail s = s ∧
      (loadHistoryItemFail id s).detections = s.detections ∧
      (loadHistoryItemFail id s).file = s.file ∧
      (loadHistoryItemFail id s).selectedId = s.selectedId ∧
      (loadHistoryItemFail id s).history = s.history ∧
      (loadHistoryItemFail id s).currentImageId = some id ∧
      (loadHistoryItemFail id s).imageSrc = some (imageUrl id) :=
  ⟨rfl, rfl, rfl, rfl, rfl, rfl, rfl, rfl, rfl, rfl⟩

/-- Minimal JSON value model for the exported artifact. -/
inductive Json where
  | str : String → Json
  | num : ℚ → Json
  | obj : List (String × Json) → Json
  | arr : List Json → Json

/-- JSON object produced for a bounding box. -/
def jsonOfBox (b : BoundingBox) : Json :=
  .obj [("x1", .num b.x1), ("y1", .num b.y1), ("x2", .num b.x2), ("y2", .num b.y2)]

/-- JSON object produced by stringifying one Detection record: the spread of
the server entry (label, confidence, box) followed by the client-assigned id,
every own property included. -/
def jsonOfDetection (d : Detection) : Json :=
  .obj [("label", .str d.label), ("confidence", .num d.confidence),
        ("box", jsonOfBox d.box), ("id", .str d.id)]

/-- The exportData artifact: JSON.stringify of the full canonical detection
list, one stringified record per entry. -/
def exportData (detections : List Detection) : Json :=
  .arr (detections.map jsonOfDetection)

/-- Keys of a JSON object value; empty for the other constructors. -/
def objKeys : Json → List String
  | .obj fields => fields.map Prod.fst
  | _ => []

/-- Elements of a JSON array value; empty for the other constructors. -/
def arrElems : Json → List Json
  | .arr es => es
  | _ => []

/-- Value stored under a key of a JSON object, if any. -/
def objGet (j : Json) (k : String) : Option Json :=
  match j with
  | .obj fields => (fields.find? (fun kv => decide (kv.1 = k))).map Prod.snd
  | _ => none

/-- C7 counterexample: the exported element for a concrete detection carries
the key id, so its key set is not the claimed label, confidence, box. -/
theorem export_includes_id_cex :
    exportData [detA] = Json.arr [jsonOfDetection detA] ∧
      "id" ∈ objKeys (jsonOfDetection detA) ∧
      objKeys (jsonOfDetection detA) ≠ ["label", "confidence", "box"] := by
  refine ⟨rfl, ?_, ?_⟩ <;> simp [objKeys, jsonOfDetection]

/-- C7 amended: the exported artifact is a JSON array with one element per
detection; each element carries label, confidence, box and also the
client-side id, with each value taken from the corresponding field, so the
ids are included in the export rather than excluded. -/
theorem export_serializes_ids (l : List Detection) (d : Detection) :
    (arrElems (exportData l)).length = l.length ∧
      arrElems (exportData l) = l.map jsonOfDetection ∧
      objKeys (jsonOfDetection d) = ["label", "confidence", "box", "id"] ∧
      objGet (jsonOfDetection d) "id" = some (.str d.id) ∧
      objGet (jsonOfDetection d) "label" = some (.str d.label) ∧
      objGet (jsonOfDetection d) "confidence" = some (.num d.confidence) ∧
      objGet (jsonOfDetection d) "box" = some (jsonOfBox d.box) := by
  refine ⟨?_, rfl, rfl, ?_, ?_, ?_, ?_⟩
  · simp [arrElems, exportData]
  all_goals simp [objGet, jsonOfDetection, List.find?]

end NeuroLabel
